import Mathlib

/-!
Shallow embedding of `outrigger/index/adjacencies.py`
(class `ExonJunctionAdjacencies`): the de novo exon detector
(`is_there_an_exon_here`, `detect_exons_from_junctions`), the exon merge
engine (`add_exon_to_db`) against a modelled feature store, and the
adjacency resolver (`_junctions_genome_adjacent_to_exon`,
`_to_stranded_transcript_adjacency`, `_single_junction_exon_triple`,
`_adjacent_junctions_single_exon`, `neighboring_exons`).

Python integers are embedded as `Int`, strings as `String`, an optional
value (Python `None`) as `Option`.  The `Region` class and the gffutils
feature database live outside the embedded file; they are modelled from
the specification where noted.
-/

namespace Outrigger

/-- Constant from the source: direction label "upstream". -/
def UPSTREAM : String := "upstream"

/-- Constant from the source: direction label "downstream". -/
def DOWNSTREAM : String := "downstream"

/-- Constant from the source: feature type of de novo exons. -/
def NOVEL_EXON : String := "novel_exon"

/-- Constant from the source: provenance tag of de novo exons. -/
def OUTRIGGER_DE_NOVO : String := "outrigger_de_novo"

/-- Constant from the source: default `max_de_novo_exon_length`. -/
def MAX_DE_NOVO_EXON_LENGTH : Int := 100

/-- Modelled from the spec: the tuple `STRANDS` of valid strand values
(`outrigger.region` is outside the embedded sources; the spec says strand
values outside the plus/minus set are normalized to unstranded). -/
def STRANDS : List String := ["-", "+"]

/-- Modelled from the spec: `outrigger.region.Region` (outside the embedded
sources) is an immutable genomic interval: chromosome, start, stop, strand,
with the strand kept as its raw string. -/
structure Region where
  chrom : String
  start : Int
  stop : Int
  strand : String
  deriving DecidableEq

/-- Modelled from the spec: `Region.overlaps` — two regions overlap iff their
intervals intersect on the same chromosome, independently of strand. -/
def Region.overlaps (a b : Region) : Bool :=
  a.chrom = b.chrom && decide (a.start ≤ b.stop) && decide (b.start ≤ a.stop)

/-- Return value of `is_there_an_exon_here`: the Python function returns
either `(False, False)` (no exon) or a pair of integers `(start, stop)`. -/
inductive ExonResult where
  | noExon : ExonResult
  | exonAt : Int → Int → ExonResult
  deriving DecidableEq

/-- `ExonJunctionAdjacencies.is_there_an_exon_here`: skip overlapping pairs,
then try option 1 (`gap1 = |junction1.stop - junction2.start|`) and, only if
it fails, option 2 (`gap2 = |junction2.stop - junction1.start|`), each
compared against `max_de_novo_exon_length` (here the explicit `maxLen`). -/
def is_there_an_exon_here (maxLen : Int) (junction1 junction2 : Region) :
    ExonResult :=
  if junction1.overlaps junction2 then .noExon
  else if |junction1.stop - junction2.start| < maxLen then
    .exonAt (junction1.stop + 1) (junction2.start - 1)
  else if |junction2.stop - junction1.start| < maxLen then
    .exonAt (junction2.stop + 1) (junction1.start - 1)
  else .noExon

/-- A gffutils-style feature record: identifier, chromosome (`seqid`),
provenance `source`, `featuretype`, coordinates, strand (gffutils keeps the
strand as a string, using "." for a missing strand), and attributes. -/
structure Feature where
  id : String
  seqid : String
  source : String
  featuretype : String
  start : Int
  stop : Int
  strand : String
  attributes : List (String × List String)
  deriving DecidableEq

/-- Modelled from the spec: feature lookup by id in the store
(`self.db[...]`); `none` plays the role of `FeatureNotFoundError`. -/
def dbLookup (db : List Feature) (i : String) : Option Feature :=
  db.find? (fun f => f.id = i)

/-- Modelled from the spec: feature insertion (`self.db.update([exon], ...)`).
The store enforces a uniqueness constraint on identifiers and raises a
distinguishable integrity error on violation; a successful insertion appends
the feature. -/
def dbUpdate (db : List Feature) (f : Feature) : Except String (List Feature) :=
  if (dbLookup db f.id).isSome then .error "IntegrityError"
  else .ok (db ++ [f])

/-- Modelled from the spec: the store's region query
(`self.db.region(seqid=..., start=..., end=..., strand=..., featuretype=...)`)
lists the features of the requested type whose interval intersects
`[start, stop]` on the chromosome, filtered by strand when a strand is
given. -/
def dbRegion (db : List Feature) (seqid : String) (start stop : Int)
    (strand : Option String) (featuretype : String) : List Feature :=
  db.filter (fun g =>
    g.featuretype = featuretype && g.seqid = seqid &&
    decide (g.start ≤ stop) && decide (start ≤ g.stop) &&
    (match strand with
     | none => true
     | some s => g.strand = s))

/-- Python `str.format` applied to an optional strand: `None` prints as
the string "None". -/
def pyFormat : Option String → String
  | some s => s
  | none => "None"

/-- gffutils stores a missing strand (`strand=None`) as ".". -/
def pyFeatureStrand : Option String → String
  | some s => s
  | none => "."

/-- The exon identifier built in `add_exon_to_db`:
`'exon:{chrom}:{start}-{stop}:{strand}'.format(...)`. -/
def exonIdStr (chrom : String) (start stop : Int) (strand : Option String) :
    String :=
  "exon:" ++ chrom ++ ":" ++ toString start ++ "-" ++ toString stop ++ ":" ++
    pyFormat strand

/-- The strand normalization at the top of `add_exon_to_db`:
`if strand not in STRANDS: strand = None`. -/
def normalizeStrand : Option String → Option String
  | some s => if STRANDS.contains s then some s else none
  | none => none

/-- The exon feature created on the no-overlapping-gene path of
`add_exon_to_db`. -/
def novel_exon_feature (chrom : String) (start stop : Int)
    (strand : Option String) (exon_id : String) : Feature :=
  { id := exon_id, seqid := chrom, source := OUTRIGGER_DE_NOVO,
    featuretype := NOVEL_EXON, start := start, stop := stop,
    strand := pyFeatureStrand strand, attributes := [] }

/-- One element of the `de_novo_exons` list in `add_exon_to_db`: the exon
built for overlapping gene `g`, with `id=exon_id + g.strand`, the gene's
strand, and a copy of the gene's attributes. -/
def de_novo_exon (chrom : String) (start stop : Int) (exon_id : String)
    (g : Feature) : Feature :=
  { id := exon_id ++ g.strand, seqid := chrom, source := OUTRIGGER_DE_NOVO,
    featuretype := NOVEL_EXON, start := start, stop := stop,
    strand := g.strand, attributes := g.attributes }

/-- The guarded display-name fallback chain of `add_exon_to_db` (prefer
`gene_name`, fall back to `gene_id`, fall back to "unknown_gene"); it cannot
raise.  The progress message that uses it, however, additionally joins
`exon.attributes['gene_id']` without this fallback — see `addDeNovoStep`. -/
def gene_display_name (attributes : List (String × List String)) : String :=
  match attributes.find? (fun p => p.1 = "gene_name") with
  | some p => String.intercalate "," p.2
  | none =>
    match attributes.find? (fun p => p.1 = "gene_id") with
    | some p => String.intercalate "," p.2
    | none => "unknown_gene"

/-- One iteration of the `for exon in de_novo_exons` loop of
`add_exon_to_db`, returning the store and the uncaught exception, if any:
look up `exon_id + exon.strand`; when the lookup fails
(`FeatureNotFoundError`), insert the exon, and treat an integrity error
raised by the insertion as "already exists" (`continue`).  After a
successful insertion the progress message evaluates
`','.join(exon.attributes['gene_id'])` unguarded; for an exon whose
attributes lack `gene_id` this raises `KeyError`, which neither the
`FeatureNotFoundError` handler nor the outer `sqlite3.IntegrityError`
handler catches, so it escapes with the exon already inserted. -/
def addDeNovoStep (db : List Feature) (exon_id : String) (exon : Feature) :
    List Feature × Option String :=
  match dbLookup db (exon_id ++ exon.strand) with
  | some _ => (db, none)
  | none =>
    match dbUpdate db exon with
    | .ok d =>
      match exon.attributes.find? (fun p => p.1 = "gene_id") with
      | some _ => (d, none)
      | none => (d, some "KeyError")
    | .error _ => (db, none)

/-- The `for exon in de_novo_exons` loop of `add_exon_to_db`: an uncaught
exception aborts the remaining iterations, keeping the insertions made so
far. -/
def addDeNovoLoop (db : List Feature) (exon_id : String) :
    List Feature → List Feature × Option String
  | [] => (db, none)
  | exon :: rest =>
    match addDeNovoStep db exon_id exon with
    | (db', none) => addDeNovoLoop db' exon_id rest
    | (db', some e) => (db', some e)

/-- `ExonJunctionAdjacencies.add_exon_to_db`.  Returns the store after the
call together with the uncaught exception, if one escaped: on the
no-overlapping-gene path `self.db.update` is called outside any handler, so
an integrity error raised there propagates, leaving the store as it was; on
the overlapping-gene path the progress message's unguarded `gene_id` access
can raise `KeyError` after a successful insertion, aborting the loop with
the insertions made so far kept. -/
def add_exon_to_db (db : List Feature) (chrom : String) (start stop : Int)
    (strand0 : Option String) : List Feature × Option String :=
  let strand := normalizeStrand strand0
  let overlapping_genes := dbRegion db chrom start stop strand "gene"
  let exon_id := exonIdStr chrom start stop strand
  if overlapping_genes.length = 0 then
    match dbUpdate db (novel_exon_feature chrom start stop strand exon_id) with
    | .ok d => (d, none)
    | .error e => (db, some e)
  else
    addDeNovoLoop db exon_id
      (overlapping_genes.map (de_novo_exon chrom start stop exon_id))

/-- Ordered pairs produced by `itertools.combinations(..., 2)` on a list. -/
def combinations : List Region → List (Region × Region)
  | [] => []
  | x :: xs => xs.map (fun y => (x, y)) ++ combinations xs

/-- The body of the pair loop in `detect_exons_from_junctions`: compute the
pair's strand (`None` when the junctions disagree), run
`is_there_an_exon_here`, and hand the result to `add_exon_to_db` only when
the returned `start` is truthy — Python `if start:` rejects both `False`
(no exon) and the integer `0`. -/
def pairCandidate (maxLen : Int) (junction1 junction2 : Region) :
    Option (String × Int × Int × Option String) :=
  let strand : Option String :=
    if junction1.strand ≠ junction2.strand then none else some junction1.strand
  match is_there_an_exon_here maxLen junction1 junction2 with
  | .noExon => none
  | .exonAt start stop =>
    if start = 0 then none else some (junction1.chrom, start, stop, strand)

/-- The `(chrom, start, stop, strand)` arguments that
`detect_exons_from_junctions` passes to `add_exon_to_db`, in pair order.
The source groups the id-sorted junction table by chromosome and takes
`itertools.combinations` inside each group; this is embedded as the ordered
pairs of the table restricted to same-chromosome pairs, which yields the
same pairs in the same relative orientation. -/
def detect_candidates (junctions : List Region) (maxLen : Int) :
    List (String × Int × Int × Option String) :=
  (combinations junctions).filterMap (fun p =>
    if p.1.chrom = p.2.chrom then pairCandidate maxLen p.1 p.2 else none)

/-- Fold `add_exon_to_db` over the detected candidates; an uncaught
exception aborts the run, as in Python. -/
def mergeCandidates (db : List Feature) :
    List (String × Int × Int × Option String) → List Feature × Option String
  | [] => (db, none)
  | (c, st, sp, sd) :: rest =>
    match add_exon_to_db db c st sp sd with
    | (db', none) => mergeCandidates db' rest
    | (db', some e) => (db', some e)

/-- `ExonJunctionAdjacencies.detect_exons_from_junctions`: detect candidate
exons between junction pairs and merge each qualifying candidate into the
store. -/
def detect_exons_from_junctions (db : List Feature) (junctions : List Region)
    (maxLen : Int) : List Feature × Option String :=
  mergeCandidates db (detect_candidates junctions maxLen)

/-- The `(start, stop)` spans of the candidate exons the detector produces
for a junction table. -/
def candidate_exon_spans (junctions : List Region) (maxLen : Int) :
    List (Int × Int) :=
  (detect_candidates junctions maxLen).map (fun c => (c.2.1, c.2.2.1))

/-- One row of the junction metadata table: the junction id (the table's
index) and the `exon_start`, `exon_stop`, `chrom`, `strand` columns. -/
structure JunctionRow where
  junction_id : String
  exon_start : Int
  exon_stop : Int
  chrom : String
  strand : String
  deriving DecidableEq

/-- An `(exon, direction, junction)` adjacency triple, one output row of the
resolver. -/
structure Triple where
  exon : String
  direction : String
  junction : String
  deriving DecidableEq

/-- `ExonJunctionAdjacencies._junctions_genome_adjacent_to_exon` (the
underscore is dropped from the name): the two genome-coordinate boolean
series over the junction table — upstream-in-genome marks rows on the
exon's chromosome and strand whose `exon_stop` equals the exon's stop,
downstream-in-genome marks rows whose `exon_start` equals the exon's
start.  Each series is kept as the id-indexed list of booleans. -/
def junctions_genome_adjacent_to_exon (meta : List JunctionRow)
    (exon : Feature) : List (String × Bool) × List (String × Bool) :=
  (meta.map (fun r =>
     (r.junction_id,
      r.chrom = exon.seqid && r.strand = exon.strand &&
        r.exon_stop = exon.stop)),
   meta.map (fun r =>
     (r.junction_id,
      r.chrom = exon.seqid && r.strand = exon.strand &&
        r.exon_start = exon.start)))

/-- `ExonJunctionAdjacencies._to_stranded_transcript_adjacency` (underscore
dropped): on "+" keep the genome directions, on "-" swap them; on any other
strand the Python function falls off the end and returns `None`. -/
def to_stranded_transcript_adjacency
    (adjacent_in_genome : List (String × Bool) × List (String × Bool))
    (strand : String) :
    Option (List (String × Bool) × List (String × Bool)) :=
  if strand = "+" then some (adjacent_in_genome.1, adjacent_in_genome.2)
  else if strand = "-" then some (adjacent_in_genome.2, adjacent_in_genome.1)
  else none

/-- `ExonJunctionAdjacencies._single_junction_exon_triple` (underscore
dropped): one `(exon, direction, junction)` row per marked junction, in
table order. -/
def single_junction_exon_triple (direction_ind : List (String × Bool))
    (direction : String) (exon_id : String) : List Triple :=
  (direction_ind.filter (fun p => p.2)).map
    (fun p => { exon := exon_id, direction := direction, junction := p.1 })

/-- `ExonJunctionAdjacencies._adjacent_junctions_single_exon` (underscore
dropped): translate the genome adjacency to transcript coordinates and emit
the upstream triples followed by the downstream triples (the dict built by
the translation iterates upstream first).  When the translation returns
`None` — the exon's strand is neither "+" nor "-" — the Python code raises
while iterating `None`; that failure is embedded as `none`. -/
def adjacent_junctions_single_exon (meta : List JunctionRow)
    (exon : Feature) : Option (List Triple) :=
  match to_stranded_transcript_adjacency
      (junctions_genome_adjacent_to_exon meta exon) exon.strand with
  | none => none
  | some adjacent =>
    some (single_junction_exon_triple adjacent.1 UPSTREAM exon.id ++
          single_junction_exon_triple adjacent.2 DOWNSTREAM exon.id)

/-- Whether a feature has one of the resolver's `exon_types`
(`'exon', NOVEL_EXON`). -/
def isExonType (f : Feature) : Bool :=
  f.featuretype = "exon" || f.featuretype = NOVEL_EXON

/-- The per-exon loop of `neighboring_exons`: concatenate the triples of
each exon; a failing exon aborts the whole run. -/
def neighboringGo (meta : List JunctionRow) : List Feature →
    Option (List Triple)
  | [] => some []
  | e :: rest =>
    match adjacent_junctions_single_exon meta e with
    | none => none
    | some ts =>
      match neighboringGo meta rest with
      | none => none
      | some rs => some (ts ++ rs)

/-- `ExonJunctionAdjacencies.neighboring_exons`: iterate every feature of an
exon type in the store and collect the adjacency triples.  With no feature
of an exon type at all, the final `pd.concat` of the empty list raises
`ValueError`; that failure is embedded as `none`, like the per-exon
failure. -/
def neighboring_exons (meta : List JunctionRow) (db : List Feature) :
    Option (List Triple) :=
  match db.filter isExonType with
  | [] => none
  | l => neighboringGo meta l

/-- The resolver emits triple `t` for `exon`: `t` is a row of the table
`_adjacent_junctions_single_exon` returns for the exon. -/
def resolver_emits (meta : List JunctionRow) (exon : Feature) (t : Triple) :
    Prop :=
  ∃ ts, adjacent_junctions_single_exon meta exon = some ts ∧ t ∈ ts

/-! ### Store lemmas -/

lemma dbUpdate_ok {db : List Feature} {f : Feature}
    (h : dbLookup db f.id = none) : dbUpdate db f = .ok (db ++ [f]) := by
  simp [dbUpdate, h]

lemma dbUpdate_error {db : List Feature} {f : Feature}
    (h : (dbLookup db f.id).isSome) :
    dbUpdate db f = .error "IntegrityError" := by
  simp [dbUpdate, h]

/-- One loop step either leaves the store alone or appends exactly the
processed exon, whether or not it raises. -/
lemma addDeNovoStep_fst (db : List Feature) (i : String) (e : Feature) :
    (addDeNovoStep db i e).1 = db ∨ (addDeNovoStep db i e).1 = db ++ [e] := by
  cases h : dbLookup db (i ++ e.strand) with
  | some f => simp [addDeNovoStep, h]
  | none =>
    cases h2 : dbLookup db e.id with
    | some f => simp [addDeNovoStep, h, dbUpdate_error (by rw [h2]; rfl)]
    | none =>
      cases h3 : e.attributes.find? (fun p => p.1 = "gene_id") with
      | some p => simp [addDeNovoStep, h, dbUpdate_ok h2, h3]
      | none => simp [addDeNovoStep, h, dbUpdate_ok h2, h3]

/-- The only exception a loop step lets escape is the `KeyError` of the
progress message; in particular the integrity error is always caught
there. -/
lemma addDeNovoStep_exc (db : List Feature) (i : String) (e : Feature) :
    (addDeNovoStep db i e).2 = none ∨
    (addDeNovoStep db i e).2 = some "KeyError" := by
  cases h : dbLookup db (i ++ e.strand) with
  | some f => simp [addDeNovoStep, h]
  | none =>
    cases h2 : dbLookup db e.id with
    | some f => simp [addDeNovoStep, h, dbUpdate_error (by rw [h2]; rfl)]
    | none =>
      cases h3 : e.attributes.find? (fun p => p.1 = "gene_id") with
      | some p => simp [addDeNovoStep, h, dbUpdate_ok h2, h3]
      | none => simp [addDeNovoStep, h, dbUpdate_ok h2, h3]

/-- A loop step over an exon that carries a `gene_id` attribute raises
nothing. -/
lemma addDeNovoStep_no_exc (db : List Feature) (i : String) {e : Feature}
    (hgid : (e.attributes.find? (fun p => p.1 = "gene_id")).isSome) :
    (addDeNovoStep db i e).2 = none := by
  obtain ⟨p, hp⟩ := Option.isSome_iff_exists.mp hgid
  cases h : dbLookup db (i ++ e.strand) with
  | some f => simp [addDeNovoStep, h]
  | none =>
    cases h2 : dbLookup db e.id with
    | some f => simp [addDeNovoStep, h, dbUpdate_error (by rw [h2]; rfl)]
    | none => simp [addDeNovoStep, h, dbUpdate_ok h2, hp]

/-- The loop lets nothing escape but the progress `KeyError`. -/
lemma addDeNovoLoop_exc (exon_id : String) (exons : List Feature) :
    ∀ db : List Feature,
      (addDeNovoLoop db exon_id exons).2 = none ∨
      (addDeNovoLoop db exon_id exons).2 = some "KeyError" := by
  induction exons with
  | nil => intro db; exact Or.inl rfl
  | cons e rest ih =>
    intro db
    rcases hs : addDeNovoStep db exon_id e with ⟨db', exc⟩
    have hstep := addDeNovoStep_exc db exon_id e
    rw [hs] at hstep
    cases exc with
    | none =>
      simp only [addDeNovoLoop, hs]
      exact ih db'
    | some err =>
      simp only [addDeNovoLoop, hs]
      simpa using hstep

/-- When every exon in the list carries a `gene_id` attribute, the loop
completes without raising. -/
lemma addDeNovoLoop_no_exc (exon_id : String) :
    ∀ exons : List Feature,
      (∀ e ∈ exons,
        (e.attributes.find? (fun p => p.1 = "gene_id")).isSome) →
      ∀ db : List Feature, (addDeNovoLoop db exon_id exons).2 = none := by
  intro exons
  induction exons with
  | nil => intro _ db; rfl
  | cons e rest ih =>
    intro hgid db
    have h0 := addDeNovoStep_no_exc db exon_id
      (hgid e (List.mem_cons_self _ _))
    rcases hs : addDeNovoStep db exon_id e with ⟨db', exc⟩
    rw [hs] at h0
    cases exc with
    | none =>
      simp only [addDeNovoLoop, hs]
      exact ih (fun e' he' => hgid e' (List.mem_cons_of_mem _ he')) db'
    | some err => simp at h0

/-- `addDeNovoLoop` only appends, and appends only elements of its input
list — also when an exception aborts it midway. -/
lemma addDeNovoLoop_append (exon_id : String) (exons : List Feature) :
    ∀ db : List Feature,
      ∃ extra, (addDeNovoLoop db exon_id exons).1 = db ++ extra ∧
        ∀ f ∈ extra, f ∈ exons := by
  induction exons with
  | nil => exact fun db => ⟨[], by simp [addDeNovoLoop], by simp⟩
  | cons e rest ih =>
    intro db
    rcases hs : addDeNovoStep db exon_id e with ⟨db', exc⟩
    have hfst : db' = db ∨ db' = db ++ [e] := by
      have h := addDeNovoStep_fst db exon_id e
      rw [hs] at h
      exact h
    cases exc with
    | none =>
      obtain ⟨extra, hl, hm⟩ := ih db'
      rcases hfst with h | h
      · subst h
        refine ⟨extra, ?_, fun f hf => List.mem_cons_of_mem e (hm f hf)⟩
        simp only [addDeNovoLoop, hs]
        exact hl
      · subst h
        refine ⟨e :: extra, ?_, fun f hf => ?_⟩
        · simp only [addDeNovoLoop, hs]
          rw [hl]
          simp
        · cases hf with
          | head => exact List.mem_cons_self e rest
          | tail b hf => exact List.mem_cons_of_mem e (hm f hf)
    | some err =>
      rcases hfst with h | h
      · subst h
        refine ⟨[], ?_, by simp⟩
        simp only [addDeNovoLoop, hs]
        simp
      · subst h
        refine ⟨[e], ?_, ?_⟩
        · simp only [addDeNovoLoop, hs]
        · intro f hf
          rw [List.mem_singleton] at hf
          rw [hf]
          exact List.mem_cons_self e rest

lemma mem_addDeNovoLoop {db : List Feature} {exon_id : String}
    {exons : List Feature} {f : Feature}
    (h : f ∈ (addDeNovoLoop db exon_id exons).1) : f ∈ db ∨ f ∈ exons := by
  obtain ⟨extra, hl, hm⟩ := addDeNovoLoop_append exon_id exons db
  rw [hl] at h
  rcases List.mem_append.mp h with h' | h'
  · exact Or.inl h'
  · exact Or.inr (hm f h')

/-- Evaluation of `add_exon_to_db`, no-overlapping-gene path, id already
present: the unguarded `db.update` raises and the error escapes. -/
lemma add_exon_to_db_nil_err {db : List Feature} {c : String} {st sp : Int}
    {sd : Option String}
    (hg : dbRegion db c st sp (normalizeStrand sd) "gene" = [])
    (h2 : (dbLookup db (exonIdStr c st sp (normalizeStrand sd))).isSome) :
    add_exon_to_db db c st sp sd = (db, some "IntegrityError") := by
  have h2' : (dbLookup db (novel_exon_feature c st sp (normalizeStrand sd)
      (exonIdStr c st sp (normalizeStrand sd))).id).isSome := h2
  simp only [add_exon_to_db, hg, List.length_nil, if_pos]
  rw [dbUpdate_error h2']

/-- Evaluation of `add_exon_to_db`, no-overlapping-gene path, id absent:
the novel exon is appended. -/
lemma add_exon_to_db_nil_ok {db : List Feature} {c : String} {st sp : Int}
    {sd : Option String}
    (hg : dbRegion db c st sp (normalizeStrand sd) "gene" = [])
    (h2 : dbLookup db (exonIdStr c st sp (normalizeStrand sd)) = none) :
    add_exon_to_db db c st sp sd =
      (db ++ [novel_exon_feature c st sp (normalizeStrand sd)
        (exonIdStr c st sp (normalizeStrand sd))], none) := by
  have h2' : dbLookup db (novel_exon_feature c st sp (normalizeStrand sd)
      (exonIdStr c st sp (normalizeStrand sd))).id = none := h2
  simp only [add_exon_to_db, hg, List.length_nil, if_pos]
  rw [dbUpdate_ok h2']

/-- Evaluation of `add_exon_to_db`, overlapping-gene path: run the merge
loop over one candidate exon per overlapping gene. -/
lemma add_exon_to_db_cons {db : List Feature} {c : String} {st sp : Int}
    {sd : Option String} {g : Feature} {gs : List Feature}
    (hg : dbRegion db c st sp (normalizeStrand sd) "gene" = g :: gs) :
    add_exon_to_db db c st sp sd =
      addDeNovoLoop db (exonIdStr c st sp (normalizeStrand sd))
        ((g :: gs).map
          (de_novo_exon c st sp (exonIdStr c st sp (normalizeStrand sd)))) := by
  simp [add_exon_to_db, hg]

/-! ### Resolver lemmas -/

lemma mem_single_junction_exon_triple (ind : List (String × Bool))
    (direction exon_id : String) (t : Triple) :
    t ∈ single_junction_exon_triple ind direction exon_id ↔
    t.exon = exon_id ∧ t.direction = direction ∧ (t.junction, true) ∈ ind := by
  constructor
  · intro h
    obtain ⟨p, hp, rfl⟩ := List.mem_map.mp h
    obtain ⟨hpmem, hp2⟩ := List.mem_filter.mp hp
    have hp2' : p.2 = true := by simpa using hp2
    refine ⟨rfl, rfl, ?_⟩
    have hpe : (p.1, true) = p := by
      cases p
      simp only at hp2'
      rw [hp2']
    exact hpe ▸ hpmem
  · intro h
    rcases t with ⟨a, b, c⟩
    obtain ⟨ha, hb, hc⟩ := h
    simp only at ha hb hc
    subst ha
    subst hb
    exact List.mem_map.mpr
      ⟨(c, true), List.mem_filter.mpr ⟨hc, rfl⟩, rfl⟩

lemma mem_genome_series (meta : List JunctionRow) (p : JunctionRow → Bool)
    (jid : String) :
    (jid, true) ∈ meta.map (fun r => (r.junction_id, p r)) ↔
    ∃ r ∈ meta, r.junction_id = jid ∧ p r = true := by
  constructor
  · intro h
    obtain ⟨r, hr, heq⟩ := List.mem_map.mp h
    rw [Prod.mk.injEq] at heq
    exact ⟨r, hr, heq.1, heq.2⟩
  · rintro ⟨r, hr, h1, h2⟩
    exact List.mem_map.mpr ⟨r, hr, by rw [h1, h2]⟩

/-- On a "-" strand exon the resolver swaps the genome directions: the
output is the genome-downstream rows (start matches) tagged upstream,
followed by the genome-upstream rows (stop matches) tagged downstream. -/
lemma adjacent_junctions_single_exon_neg (meta : List JunctionRow)
    (exon : Feature) (h : exon.strand = "-") :
    adjacent_junctions_single_exon meta exon =
      some (single_junction_exon_triple
              (junctions_genome_adjacent_to_exon meta exon).2 UPSTREAM
              exon.id ++
            single_junction_exon_triple
              (junctions_genome_adjacent_to_exon meta exon).1 DOWNSTREAM
              exon.id) := by
  rw [adjacent_junctions_single_exon, to_stranded_transcript_adjacency,
    if_neg (by rw [h]; decide), if_pos h]

/-- On a "+" strand exon the resolver keeps the genome directions. -/
lemma adjacent_junctions_single_exon_pos (meta : List JunctionRow)
    (exon : Feature) (h : exon.strand = "+") :
    adjacent_junctions_single_exon meta exon =
      some (single_junction_exon_triple
              (junctions_genome_adjacent_to_exon meta exon).1 UPSTREAM
              exon.id ++
            single_junction_exon_triple
              (junctions_genome_adjacent_to_exon meta exon).2 DOWNSTREAM
              exon.id) := by
  rw [adjacent_junctions_single_exon, to_stranded_transcript_adjacency,
    if_pos h]

/-- Full characterization of the triples emitted for a "-" strand exon. -/
lemma resolver_emits_neg_iff (meta : List JunctionRow) (exon : Feature)
    (h : exon.strand = "-") (t : Triple) :
    resolver_emits meta exon t ↔
      t.exon = exon.id ∧
      ((t.direction = UPSTREAM ∧ ∃ r ∈ meta, r.junction_id = t.junction ∧
          r.chrom = exon.seqid ∧ r.strand = exon.strand ∧
          r.exon_start = exon.start) ∨
       (t.direction = DOWNSTREAM ∧ ∃ r ∈ meta, r.junction_id = t.junction ∧
          r.chrom = exon.seqid ∧ r.strand = exon.strand ∧
          r.exon_stop = exon.stop)) := by
  constructor
  · rintro ⟨ts, hts, hm⟩
    rw [adjacent_junctions_single_exon_neg meta exon h,
      Option.some.injEq] at hts
    subst hts
    rcases List.mem_append.mp hm with h' | h' <;>
      rw [mem_single_junction_exon_triple] at h'
    · obtain ⟨he, hd, hj⟩ := h'
      obtain ⟨r, hr, hid, hp⟩ :=
        (mem_genome_series meta _ t.junction).mp hj
      simp only [Bool.and_eq_true, decide_eq_true_eq] at hp
      exact ⟨he, Or.inl ⟨hd, r, hr, hid, hp.1.1, hp.1.2, hp.2⟩⟩
    · obtain ⟨he, hd, hj⟩ := h'
      obtain ⟨r, hr, hid, hp⟩ :=
        (mem_genome_series meta _ t.junction).mp hj
      simp only [Bool.and_eq_true, decide_eq_true_eq] at hp
      exact ⟨he, Or.inr ⟨hd, r, hr, hid, hp.1.1, hp.1.2, hp.2⟩⟩
  · rintro ⟨he, hcase⟩
    refine ⟨_, adjacent_junctions_single_exon_neg meta exon h, ?_⟩
    rcases hcase with ⟨hd, r, hr, hid, hc1, hc2, hc3⟩ |
        ⟨hd, r, hr, hid, hc1, hc2, hc3⟩
    · refine List.mem_append_left _ ?_
      rw [mem_single_junction_exon_triple]
      refine ⟨he, hd, ?_⟩
      exact (mem_genome_series meta _ t.junction).mpr
        ⟨r, hr, hid, by simp [hc1, hc2, hc3]⟩
    · refine List.mem_append_right _ ?_
      rw [mem_single_junction_exon_triple]
      refine ⟨he, hd, ?_⟩
      exact (mem_genome_series meta _ t.junction).mpr
        ⟨r, hr, hid, by simp [hc1, hc2, hc3]⟩

/-- Full characterization of the triples emitted for a "+" strand exon. -/
lemma resolver_emits_pos_iff (meta : List JunctionRow) (exon : Feature)
    (h : exon.strand = "+") (t : Triple) :
    resolver_emits meta exon t ↔
      t.exon = exon.id ∧
      ((t.direction = UPSTREAM ∧ ∃ r ∈ meta, r.junction_id = t.junction ∧
          r.chrom = exon.seqid ∧ r.strand = exon.strand ∧
          r.exon_stop = exon.stop) ∨
       (t.direction = DOWNSTREAM ∧ ∃ r ∈ meta, r.junction_id = t.junction ∧
          r.chrom = exon.seqid ∧ r.strand = exon.strand ∧
          r.exon_start = exon.start)) := by
  constructor
  · rintro ⟨ts, hts, hm⟩
    rw [adjacent_junctions_single_exon_pos meta exon h,
      Option.some.injEq] at hts
    subst hts
    rcases List.mem_append.mp hm with h' | h' <;>
      rw [mem_single_junction_exon_triple] at h'
    · obtain ⟨he, hd, hj⟩ := h'
      obtain ⟨r, hr, hid, hp⟩ :=
        (mem_genome_series meta _ t.junction).mp hj
      simp only [Bool.and_eq_true, decide_eq_true_eq] at hp
      exact ⟨he, Or.inl ⟨hd, r, hr, hid, hp.1.1, hp.1.2, hp.2⟩⟩
    · obtain ⟨he, hd, hj⟩ := h'
      obtain ⟨r, hr, hid, hp⟩ :=
        (mem_genome_series meta _ t.junction).mp hj
      simp only [Bool.and_eq_true, decide_eq_true_eq] at hp
      exact ⟨he, Or.inr ⟨hd, r, hr, hid, hp.1.1, hp.1.2, hp.2⟩⟩
  · rintro ⟨he, hcase⟩
    refine ⟨_, adjacent_junctions_single_exon_pos meta exon h, ?_⟩
    rcases hcase with ⟨hd, r, hr, hid, hc1, hc2, hc3⟩ |
        ⟨hd, r, hr, hid, hc1, hc2, hc3⟩
    · refine List.mem_append_left _ ?_
      rw [mem_single_junction_exon_triple]
      refine ⟨he, hd, ?_⟩
      exact (mem_genome_series meta _ t.junction).mpr
        ⟨r, hr, hid, by simp [hc1, hc2, hc3]⟩
    · refine List.mem_append_right _ ?_
      rw [mem_single_junction_exon_triple]
      refine ⟨he, hd, ?_⟩
      exact (mem_genome_series meta _ t.junction).mpr
        ⟨r, hr, hid, by simp [hc1, hc2, hc3]⟩

/-- A member of the iterated exon list whose resolution fails aborts the
whole `neighboring_exons` loop. -/
lemma neighboringGo_none (meta : List JunctionRow) :
    ∀ l : List Feature, ∀ e ∈ l,
      adjacent_junctions_single_exon meta e = none →
      neighboringGo meta l = none := by
  intro l
  induction l with
  | nil => intro e he; cases he
  | cons e0 rest ih =>
    intro e he hnone
    cases he with
    | head => simp only [neighboringGo, hnone]
    | tail b he =>
      cases h0 : adjacent_junctions_single_exon meta e0 with
      | none => simp only [neighboringGo, h0]
      | some ts => simp only [neighboringGo, h0, ih e he hnone]

/-! ### Claim theorems -/

/-- C1 failing input: a gene on "+" overlapping the candidate interval
whose attributes lack `gene_id` (the spec's display-name fallback
contemplates exactly this case). -/
def c1_geneA : Feature :=
  { id := "geneA", seqid := "chr1", source := "ann", featuretype := "gene",
    start := 5, stop := 25, strand := "+",
    attributes := [("gene_name", ["GA"])] }

/-- C1 failing input: a second overlapping gene on "-" carrying
`gene_id`. -/
def c1_geneB : Feature :=
  { id := "geneB", seqid := "chr1", source := "ann", featuretype := "gene",
    start := 5, stop := 25, strand := "-",
    attributes := [("gene_id", ["gB"])] }

/-- C1: the merge engine is NOT idempotent — the code contradicts the
spec's hard idempotence requirement.  With the unstranded query returning
`c1_geneA` (no `gene_id`) then `c1_geneB`, the first call inserts gene A's
exon and then the progress message's unguarded
`','.join(exon.attributes['gene_id'])` raises `KeyError`, aborting the loop
before gene B's exon; the second identical call skips gene A's exon (the
dedup lookup now succeeds) and inserts gene B's exon
(`exon:chr1:10-20:None-`), so the store's exon set changes after the
second call. -/
theorem add_exon_to_db_not_idempotent :
    (add_exon_to_db [c1_geneA, c1_geneB] "chr1" 10 20 none).2 =
      some "KeyError" ∧
    dbLookup (add_exon_to_db [c1_geneA, c1_geneB] "chr1" 10 20 none).1
      "exon:chr1:10-20:None-" = none ∧
    (dbLookup (add_exon_to_db
        (add_exon_to_db [c1_geneA, c1_geneB] "chr1" 10 20 none).1
        "chr1" 10 20 none).1 "exon:chr1:10-20:None-").isSome = true ∧
    (add_exon_to_db
        (add_exon_to_db [c1_geneA, c1_geneB] "chr1" 10 20 none).1
        "chr1" 10 20 none).1 ≠
      (add_exon_to_db [c1_geneA, c1_geneB] "chr1" 10 20 none).1 := by
  decide

/-- C2: for a pair of distinct, non-overlapping junctions on the same
chromosome, the detector follows the gap rule exactly: if
`gap1 = |junction1.stop - junction2.start|` is below the limit the candidate
is `(junction1.stop + 1, junction2.start - 1)` — regardless of `gap2`, so
option 1 always wins a tie; otherwise if `gap2` is below the limit the
candidate is `(junction2.stop + 1, junction1.start - 1)`; otherwise there is
no candidate. -/
theorem is_there_an_exon_here_gap_rule (maxLen : Int) (j1 j2 : Region)
    (hchrom : j1.chrom = j2.chrom) (hne : j1 ≠ j2)
    (hov : j1.overlaps j2 = false) :
    (|j1.stop - j2.start| < maxLen →
        is_there_an_exon_here maxLen j1 j2 =
          .exonAt (j1.stop + 1) (j2.start - 1)) ∧
    (¬ |j1.stop - j2.start| < maxLen → |j2.stop - j1.start| < maxLen →
        is_there_an_exon_here maxLen j1 j2 =
          .exonAt (j2.stop + 1) (j1.start - 1)) ∧
    (¬ |j1.stop - j2.start| < maxLen → ¬ |j2.stop - j1.start| < maxLen →
        is_there_an_exon_here maxLen j1 j2 = .noExon) := by
  have hov' : ¬ (j1.overlaps j2 = true) := by simp [hov]
  refine ⟨fun h1 => ?_, fun h1 h2 => ?_, fun h1 h2 => ?_⟩
  · rw [is_there_an_exon_here, if_neg hov', if_pos h1]
  · rw [is_there_an_exon_here, if_neg hov', if_neg h1, if_pos h2]
  · rw [is_there_an_exon_here, if_neg hov', if_neg h1, if_neg h2]

/-- C2 witness input: spec end-to-end scenario A, junction 1. -/
def jA1 : Region := ⟨"chr1", 100, 200, "+"⟩

/-- C2 witness input: spec end-to-end scenario A, junction 2. -/
def jA2 : Region := ⟨"chr1", 250, 260, "+"⟩

/-- C2 witness: scenario A — `gap1 = |200 - 250| = 50 < 100`, so the
candidate exon is `(201, 249)`. -/
theorem is_there_an_exon_here_gap_rule_witness :
    jA1.overlaps jA2 = false ∧ |jA1.stop - jA2.start| < 100 ∧
    is_there_an_exon_here 100 jA1 jA2 = .exonAt 201 249 :=
  ⟨by decide, by decide,
   (is_there_an_exon_here_gap_rule 100 jA1 jA2 (by decide) (by decide)
     (by decide)).1 (by decide)⟩

/-- C6: whenever the two junction regions overlap, the detector produces no
candidate exon, regardless of what the gap arithmetic would yield. -/
theorem overlapping_pair_no_exon (maxLen : Int) (j1 j2 : Region)
    (h : j1.overlaps j2 = true) :
    is_there_an_exon_here maxLen j1 j2 = .noExon := by
  rw [is_there_an_exon_here, if_pos h]

/-- C6 witness input: first of two overlapping junctions. -/
def jO1 : Region := ⟨"chr1", 100, 200, "+"⟩

/-- C6 witness input: second of two overlapping junctions (overlap is
strand-independent). -/
def jO2 : Region := ⟨"chr1", 150, 250, "-"⟩

/-- C6 witness: an overlapping pair with tiny gap arithmetic still yields no
candidate. -/
theorem overlapping_pair_no_exon_witness :
    jO1.overlaps jO2 = true ∧
    is_there_an_exon_here 100 jO1 jO2 = .noExon :=
  ⟨by decide, overlapping_pair_no_exon 100 jO1 jO2 (by decide)⟩

/-- C3 input: a junction table of two junctions on one chromosome whose id
strings sort the genomically right junction first ("junction:chr1:1000-1100:+"
precedes "junction:chr1:850-950:+" lexicographically). -/
def j3a : Region := ⟨"chr1", 1000, 1100, "+"⟩

/-- C3 input: the genomically left junction of the pair. -/
def j3b : Region := ⟨"chr1", 850, 950, "+"⟩

/-- C3 counterexample: at the default limit 100 the pair qualifies through
option 2 and produces the span `(951, 999)`; at limit 1000000 (standing for
an arbitrarily large limit — any limit above 250 behaves the same) option 1
qualifies first and produces `(1101, 849)` instead, so the candidate set at
the large limit is not a superset of the set at the default. -/
theorem candidate_spans_not_monotone :
    (951, 999) ∈ candidate_exon_spans [j3a, j3b] 100 ∧
    (951, 999) ∉ candidate_exon_spans [j3a, j3b] 1000000 := by decide

/-- C3 amended: raising the limit preserves the existence of a candidate for
every pair (any pair that yields a candidate at the lower limit still yields
a — possibly different — candidate at any higher limit), but not the
candidate itself. -/
theorem pair_candidate_monotone (L L' : Int) (j1 j2 : Region) (h : L ≤ L')
    (hc : is_there_an_exon_here L j1 j2 ≠ .noExon) :
    is_there_an_exon_here L' j1 j2 ≠ .noExon := by
  rw [is_there_an_exon_here] at hc ⊢
  by_cases hov : j1.overlaps j2 = true
  · rw [if_pos hov] at hc
    exact absurd rfl hc
  · rw [if_neg hov] at hc ⊢
    by_cases h1 : |j1.stop - j2.start| < L
    · rw [if_pos (lt_of_lt_of_le h1 h)]
      simp
    · rw [if_neg h1] at hc
      by_cases h2 : |j2.stop - j1.start| < L
      · by_cases h1' : |j1.stop - j2.start| < L'
        · rw [if_pos h1']
          simp
        · rw [if_neg h1', if_pos (lt_of_lt_of_le h2 h)]
          simp
      · rw [if_neg h2] at hc
        exact absurd rfl hc

/-- C3 witness: the amended monotonicity applied to the concrete pair at
limits 100 and 1000000. -/
theorem pair_candidate_monotone_witness :
    (100 : Int) ≤ 1000000 ∧ is_there_an_exon_here 100 j3a j3b ≠ .noExon ∧
    is_there_an_exon_here 1000000 j3a j3b ≠ .noExon :=
  ⟨by decide, by decide,
   pair_candidate_monotone 100 1000000 j3a j3b (by decide) (by decide)⟩

/-- C9 input: the genomically right junction, whose id string
"junction:chr1:1000-1050:+" sorts before the other's. -/
def j9a : Region := ⟨"chr1", 1000, 1050, "+"⟩

/-- C9 input: the genomically left junction. -/
def j9b : Region := ⟨"chr1", 960, 980, "+"⟩

/-- C9: with junction 2 genomically left of junction 1, option 1 qualifies
through the absolute-value gap and the returned interval
`(junction1.stop + 1, junction2.start - 1) = (1051, 959)` is inverted
(start > stop); the detector passes it to `add_exon_to_db`, which inserts an
exon with `start = 1051 > stop = 959` into the store, violating the
`start <= stop` interval invariant for stored exons. -/
theorem inverted_candidate_inserted :
    is_there_an_exon_here 100 j9a j9b = .exonAt 1051 959 ∧
    (959 : Int) < 1051 ∧
    detect_candidates [j9a, j9b] 100 = [("chr1", 1051, 959, some "+")] ∧
    ∃ f ∈ (detect_exons_from_junctions [] [j9a, j9b] 100).1,
      f.start = 1051 ∧ f.stop = 959 ∧ f.stop < f.start := by decide

/-- C10: when `is_there_an_exon_here` reports an exon whose start is the
integer 0, the `if start:` truthiness test in `detect_exons_from_junctions`
silently discards the candidate: it is never handed to `add_exon_to_db`, and
the store comes back unchanged. -/
theorem zero_start_candidate_discarded (maxLen : Int) (j1 j2 : Region)
    (t : Int) (hchrom : j1.chrom = j2.chrom)
    (h : is_there_an_exon_here maxLen j1 j2 = .exonAt 0 t) :
    detect_candidates [j1, j2] maxLen = [] ∧
    ∀ db : List Feature,
      detect_exons_from_junctions db [j1, j2] maxLen = (db, none) := by
  have hc : detect_candidates [j1, j2] maxLen = [] := by
    simp [detect_candidates, combinations, pairCandidate, hchrom, h]
  refine ⟨hc, fun db => ?_⟩
  rw [detect_exons_from_junctions, hc]
  rfl

/-- C10 witness input: a junction ending at coordinate -1, so the candidate
start is `-1 + 1 = 0`. -/
def j10a : Region := ⟨"chr1", -10, -1, "+"⟩

/-- C10 witness input: the partner junction. -/
def j10b : Region := ⟨"chr1", 5, 8, "+"⟩

/-- C10 witness: the pair's candidate is `(0, 4)`, yet the detector hands
nothing to the merge engine. -/
theorem zero_start_candidate_discarded_witness :
    is_there_an_exon_here 100 j10a j10b = .exonAt 0 4 ∧
    detect_candidates [j10a, j10b] 100 = [] :=
  ⟨by decide,
   (zero_start_candidate_discarded 100 j10a j10b 4 (by decide)
     (by decide)).1⟩

/-- C7 input: a store already holding a feature with the exact id
`exon:chr1:10-20:+` and no gene overlapping the query interval. -/
def dup_exon : Feature :=
  { id := "exon:chr1:10-20:+", seqid := "chr1", source := OUTRIGGER_DE_NOVO,
    featuretype := NOVEL_EXON, start := 10, stop := 20, strand := "+",
    attributes := [] }

/-- C7 counterexample: on the no-overlapping-gene path the store's
uniqueness violation is NOT caught — `add_exon_to_db` lets the integrity
error escape to the caller. -/
theorem integrity_error_escapes :
    (add_exon_to_db [dup_exon] "chr1" 10 20 (some "+")).2 =
      some "IntegrityError" := by decide

/-- C7 amended: the integrity error is caught and treated as a no-op only
on the overlapping-gene insertion path — an integrity error never escapes
there (the only exception that can escape that path is the progress
message's `KeyError`, and none escapes when every overlapping gene carries
`gene_id`); on the no-overlapping-gene path the update is unguarded, and a
uniqueness violation there propagates to the caller. -/
theorem integrity_error_caught_only_on_gene_path (db : List Feature)
    (c : String) (st sp : Int) (sd : Option String) :
    (dbRegion db c st sp (normalizeStrand sd) "gene" ≠ [] →
      (add_exon_to_db db c st sp sd).2 ≠ some "IntegrityError") ∧
    (dbRegion db c st sp (normalizeStrand sd) "gene" ≠ [] →
      (∀ g ∈ dbRegion db c st sp (normalizeStrand sd) "gene",
        (g.attributes.find? (fun p => p.1 = "gene_id")).isSome) →
      (add_exon_to_db db c st sp sd).2 = none) ∧
    (dbRegion db c st sp (normalizeStrand sd) "gene" = [] →
      (dbLookup db (exonIdStr c st sp (normalizeStrand sd))).isSome →
      (add_exon_to_db db c st sp sd).2 = some "IntegrityError") := by
  refine ⟨fun h => ?_, fun h hgid => ?_, fun hg h2 => ?_⟩
  · cases hg : dbRegion db c st sp (normalizeStrand sd) "gene" with
    | nil => exact absurd hg h
    | cons g gs =>
      rw [add_exon_to_db_cons hg]
      rcases addDeNovoLoop_exc (exonIdStr c st sp (normalizeStrand sd))
          ((g :: gs).map (de_novo_exon c st sp
            (exonIdStr c st sp (normalizeStrand sd)))) db with hx | hx <;>
        rw [hx] <;> simp
  · cases hg : dbRegion db c st sp (normalizeStrand sd) "gene" with
    | nil => exact absurd hg h
    | cons g gs =>
      rw [add_exon_to_db_cons hg]
      apply addDeNovoLoop_no_exc
      intro e he
      obtain ⟨g', hg', rfl⟩ := List.mem_map.mp he
      have hmem : g' ∈ dbRegion db c st sp (normalizeStrand sd) "gene" := by
        rw [hg]
        exact hg'
      exact hgid g' hmem
  · rw [add_exon_to_db_nil_err hg h2]

/-- C7 witness input: an annotated gene carrying `gene_id`, overlapping the
query interval. -/
def c7_gene : Feature :=
  { id := "gene7", seqid := "chr1", source := "ann", featuretype := "gene",
    start := 5, stop := 25, strand := "+",
    attributes := [("gene_id", ["g7"])] }

/-- C7 witness: with an overlapping gene (carrying `gene_id`) present, no
error escapes the merge engine. -/
theorem integrity_error_caught_only_on_gene_path_witness :
    dbRegion [c7_gene] "chr1" 10 20 (normalizeStrand (some "+")) "gene" ≠
      [] ∧
    (add_exon_to_db [c7_gene] "chr1" 10 20 (some "+")).2 = none :=
  ⟨by decide,
   (integrity_error_caught_only_on_gene_path [c7_gene] "chr1" 10 20
     (some "+")).2.1 (by decide) (by decide)⟩

/-- C4 input: a gene on the "+" strand overlapping the candidate
interval. -/
def c4_gene : Feature :=
  { id := "gene4", seqid := "chr1", source := "ann", featuretype := "gene",
    start := 5, stop := 25, strand := "+",
    attributes := [("gene_id", ["g4"])] }

/-- C4 counterexample: merging candidate `(chr1, 10, 20, +)` over a "+"
strand gene stores the exon under id `exon:chr1:10-20:++` — the gene's
strand is appended after the pair's strand — and no exon with the claimed id
`exon:chr1:10-20:+` (gene strand substituted) exists in the store. -/
theorem gene_strand_appended_not_substituted :
    (dbLookup (add_exon_to_db [c4_gene] "chr1" 10 20 (some "+")).1
      "exon:chr1:10-20:++").isSome = true ∧
    dbLookup (add_exon_to_db [c4_gene] "chr1" 10 20 (some "+")).1
      "exon:chr1:10-20:+" = none := by decide

/-- C4 amended: on the overlapping-gene path, each candidate exon carries
the overlapping gene's strand and attributes, and its id is
`exon:<chrom>:<start>-<stop>:<pair-strand>` with the gene's strand appended
(`exon_id + g.strand`), not substituted: every feature of the store after
`add_exon_to_db` is a pre-existing feature, the no-overlap novel exon, or
such a per-gene candidate. -/
theorem add_exon_to_db_output_ids (db : List Feature) (c : String)
    (st sp : Int) (sd : Option String) (f : Feature)
    (hf : f ∈ (add_exon_to_db db c st sp sd).1) :
    f ∈ db ∨
    f = novel_exon_feature c st sp (normalizeStrand sd)
        (exonIdStr c st sp (normalizeStrand sd)) ∨
    ∃ g, g ∈ dbRegion db c st sp (normalizeStrand sd) "gene" ∧
      f = de_novo_exon c st sp (exonIdStr c st sp (normalizeStrand sd)) g ∧
      f.id = exonIdStr c st sp (normalizeStrand sd) ++ g.strand ∧
      f.strand = g.strand := by
  cases hg : dbRegion db c st sp (normalizeStrand sd) "gene" with
  | nil =>
    cases h2 : dbLookup db (exonIdStr c st sp (normalizeStrand sd)) with
    | some x =>
      rw [add_exon_to_db_nil_err hg (by rw [h2]; rfl)] at hf
      exact Or.inl hf
    | none =>
      rw [add_exon_to_db_nil_ok hg h2] at hf
      rcases List.mem_append.mp hf with h | h
      · exact Or.inl h
      · rw [List.mem_singleton] at h
        exact Or.inr (Or.inl h)
  | cons g gs =>
    rw [add_exon_to_db_cons hg] at hf
    rcases mem_addDeNovoLoop hf with h | h
    · exact Or.inl h
    · obtain ⟨g', hg', rfl⟩ := List.mem_map.mp h
      exact Or.inr (Or.inr ⟨g', hg', rfl, rfl, rfl⟩)

/-- C5: strand-flip correctness of the resolver.  For an exon on the "-"
strand, a junction row on the exon's chromosome and strand whose `exon_stop`
equals the exon's stop is emitted tagged "downstream" — and not "upstream",
unless it separately matches the exon's start — and a row whose `exon_start`
equals the exon's start is emitted tagged "upstream".  For a "+" strand exon
the genome directions are kept: a stop match is tagged "upstream" and a
start match "downstream". -/
theorem resolver_strand_flip (meta : List JunctionRow) (exon : Feature)
    (r : JunctionRow) (hmem : r ∈ meta)
    (huniq : ∀ r' ∈ meta, r'.junction_id = r.junction_id → r' = r)
    (hchrom : r.chrom = exon.seqid) (hstrand : r.strand = exon.strand) :
    (exon.strand = "-" → r.exon_stop = exon.stop →
      resolver_emits meta exon
        { exon := exon.id, direction := DOWNSTREAM,
          junction := r.junction_id }) ∧
    (exon.strand = "-" → r.exon_stop = exon.stop →
      r.exon_start ≠ exon.start →
      ¬ resolver_emits meta exon
        { exon := exon.id, direction := UPSTREAM,
          junction := r.junction_id }) ∧
    (exon.strand = "-" → r.exon_start = exon.start →
      resolver_emits meta exon
        { exon := exon.id, direction := UPSTREAM,
          junction := r.junction_id }) ∧
    (exon.strand = "+" → r.exon_stop = exon.stop →
      resolver_emits meta exon
        { exon := exon.id, direction := UPSTREAM,
          junction := r.junction_id }) ∧
    (exon.strand = "+" → r.exon_start = exon.start →
      resolver_emits meta exon
        { exon := exon.id, direction := DOWNSTREAM,
          junction := r.junction_id }) := by
  refine ⟨fun hneg hstop => ?_, fun hneg hstop hnstart hem => ?_,
    fun hneg hstart => ?_, fun hpos hstop => ?_, fun hpos hstart => ?_⟩
  · rw [resolver_emits_neg_iff meta exon hneg]
    exact ⟨rfl, Or.inr ⟨rfl, r, hmem, rfl, hchrom, hstrand, hstop⟩⟩
  · rw [resolver_emits_neg_iff meta exon hneg] at hem
    obtain ⟨_, hem⟩ := hem
    rcases hem with ⟨_, r', hr', hid, _, _, hstart'⟩ | ⟨hd, _⟩
    · rw [huniq r' hr' hid] at hstart'
      exact hnstart hstart'
    · simp [UPSTREAM, DOWNSTREAM] at hd
  · rw [resolver_emits_neg_iff meta exon hneg]
    exact ⟨rfl, Or.inl ⟨rfl, r, hmem, rfl, hchrom, hstrand, hstart⟩⟩
  · rw [resolver_emits_pos_iff meta exon hpos]
    exact ⟨rfl, Or.inl ⟨rfl, r, hmem, rfl, hchrom, hstrand, hstop⟩⟩
  · rw [resolver_emits_pos_iff meta exon hpos]
    exact ⟨rfl, Or.inr ⟨rfl, r, hmem, rfl, hchrom, hstrand, hstart⟩⟩

/-- C5 witness input: the one-row junction table of spec scenario C. -/
def metaC5 : List JunctionRow :=
  [{ junction_id := "jC", exon_start := 201, exon_stop := 500,
     chrom := "chr1", strand := "-" }]

/-- C5 witness input: the "-" strand exon of spec scenario C. -/
def exonC5 : Feature :=
  { id := "exon:chr1:201-249:-", seqid := "chr1", source := "ann",
    featuretype := "exon", start := 201, stop := 249, strand := "-",
    attributes := [] }

/-- C5 witness: scenario C — on the "-" strand exon, the junction matching
the exon's start is emitted tagged "upstream". -/
theorem resolver_strand_flip_witness :
    resolver_emits metaC5 exonC5
      { exon := exonC5.id, direction := UPSTREAM, junction := "jC" } :=
  (resolver_strand_flip metaC5 exonC5
    { junction_id := "jC", exon_start := 201, exon_stop := 500,
      chrom := "chr1", strand := "-" }
    (by decide) (fun r' hr' _ => List.mem_singleton.mp hr')
    (by decide) (by decide)).2.2.1 (by decide) (by decide)

/-- C8: for an exon whose strand is neither "+" nor "-",
`_to_stranded_transcript_adjacency` returns no mapping, so
`_adjacent_junctions_single_exon` fails on that exon instead of emitting
triples, and `neighboring_exons` fails on any store containing such an exon
among its iterated exon types: the resolver is only total over exons
stranded "+" or "-". -/
theorem unstranded_exon_resolver_fails (meta : List JunctionRow)
    (db : List Feature) (exon : Feature)
    (h1 : exon.strand ≠ "+") (h2 : exon.strand ≠ "-") :
    to_stranded_transcript_adjacency
        (junctions_genome_adjacent_to_exon meta exon) exon.strand = none ∧
    adjacent_junctions_single_exon meta exon = none ∧
    (exon ∈ db → isExonType exon = true →
      neighboring_exons meta db = none) := by
  have ht : to_stranded_transcript_adjacency
      (junctions_genome_adjacent_to_exon meta exon) exon.strand = none := by
    rw [to_stranded_transcript_adjacency, if_neg h1, if_neg h2]
  have ha : adjacent_junctions_single_exon meta exon = none := by
    rw [adjacent_junctions_single_exon, ht]
  refine ⟨ht, ha, fun hmem htype => ?_⟩
  have hmem' : exon ∈ db.filter isExonType :=
    List.mem_filter.mpr ⟨hmem, htype⟩
  rw [neighboring_exons]
  cases hfil : db.filter isExonType with
  | nil => rfl
  | cons x xs =>
    rw [hfil] at hmem'
    exact neighboringGo_none meta (x :: xs) exon hmem' ha

/-- C8 witness input: an unstranded de novo exon, as stored by the merge
engine for a strand-disagreeing junction pair. -/
def unstranded_exon : Feature :=
  { id := "exon:chr1:100-200:None", seqid := "chr1",
    source := OUTRIGGER_DE_NOVO, featuretype := NOVEL_EXON, start := 100,
    stop := 200, strand := ".", attributes := [] }

/-- C8 witness: the resolver fails on the unstranded exon and on any store
containing it. -/
theorem unstranded_exon_resolver_fails_witness :
    adjacent_junctions_single_exon [] unstranded_exon = none ∧
    neighboring_exons [] [unstranded_exon] = none :=
  ⟨(unstranded_exon_resolver_fails [] [unstranded_exon] unstranded_exon
      (by decide) (by decide)).2.1,
   (unstranded_exon_resolver_fails [] [unstranded_exon] unstranded_exon
      (by decide) (by decide)).2.2 (by decide) (by decide)⟩

/-- C4 witness: the characterization applied to the stored candidate built
over `c4_gene`. -/
theorem add_exon_to_db_output_ids_witness :
    de_novo_exon "chr1" 10 20 "exon:chr1:10-20:+" c4_gene ∈ [c4_gene] ∨
    de_novo_exon "chr1" 10 20 "exon:chr1:10-20:+" c4_gene =
      novel_exon_feature "chr1" 10 20 (normalizeStrand (some "+"))
        (exonIdStr "chr1" 10 20 (normalizeStrand (some "+"))) ∨
    ∃ g, g ∈ dbRegion [c4_gene] "chr1" 10 20 (normalizeStrand (some "+"))
        "gene" ∧
      de_novo_exon "chr1" 10 20 "exon:chr1:10-20:+" c4_gene =
        de_novo_exon "chr1" 10 20
          (exonIdStr "chr1" 10 20 (normalizeStrand (some "+"))) g ∧
      (de_novo_exon "chr1" 10 20 "exon:chr1:10-20:+" c4_gene).id =
        exonIdStr "chr1" 10 20 (normalizeStrand (some "+")) ++ g.strand ∧
      (de_novo_exon "chr1" 10 20 "exon:chr1:10-20:+" c4_gene).strand =
        g.strand :=
  add_exon_to_db_output_ids [c4_gene] "chr1" 10 20 (some "+")
    (de_novo_exon "chr1" 10 20 "exon:chr1:10-20:+" c4_gene) (by decide)

end Outrigger
